import Mathlib

/-!
Shallow embedding of the MCP quickstart repository: the client's query
orchestrator, direct tool-call path and interactive-loop dispatch
(client index.ts), and the weather server's rate-limited NWS fetch
helper and tool handlers (weather-server src/index.ts).

External effects (the model provider, the MCP transport, HTTP fetch,
JSON.parse) are modelled as explicit environment parameters; JavaScript
exceptions are modelled as Except values; the unbounded 429 retry
recursion is totalised with an explicit fuel argument.
-/

/-- A JSON value as produced by JSON.parse / consumed by JSON.stringify.
Numbers are modelled as integers (no claim depends on fractional
numbers), and string escaping covers quotes and backslashes. -/
inductive Json where
  | null : Json
  | bool : Bool → Json
  | num : Int → Json
  | str : String → Json
  | arr : List Json → Json
  | obj : List (String × Json) → Json

/-- Escape one character for a JSON string literal. -/
def escapeChar (c : Char) : String :=
  if c = '"' then "\\\"" else if c = '\\' then "\\\\" else String.singleton c

/-- Escape a string for inclusion in a JSON string literal. -/
def escapeStr (s : String) : String :=
  List.foldl (fun acc c => acc ++ escapeChar c) "" s.toList

mutual

/-- Compact serialisation, modelling JSON.stringify(x). -/
def Json.stringify : Json → String
  | .null => "null"
  | .bool b => if b then "true" else "false"
  | .num n => toString n
  | .str s => "\"" ++ escapeStr s ++ "\""
  | .arr xs => "[" ++ Json.stringifyItems xs ++ "]"
  | .obj kvs => "\x7b" ++ Json.stringifyFields kvs ++ "\x7d"

def Json.stringifyItems : List Json → String
  | [] => ""
  | [x] => Json.stringify x
  | x :: y :: xs => Json.stringify x ++ "," ++ Json.stringifyItems (y :: xs)

def Json.stringifyFields : List (String × Json) → String
  | [] => ""
  | [kv] => "\"" ++ escapeStr kv.1 ++ "\":" ++ Json.stringify kv.2
  | kv :: kv2 :: kvs =>
      "\"" ++ escapeStr kv.1 ++ "\":" ++ Json.stringify kv.2 ++ "," ++
        Json.stringifyFields (kv2 :: kvs)

end

/-- Indentation for the pretty serialiser. -/
def spaces (n : Nat) : String := String.mk (List.replicate n ' ')

mutual

/-- Pretty serialisation with two-space indent, modelling
JSON.stringify(x, null, 2). -/
def Json.stringifyPretty : Nat → Json → String
  | _, .null => "null"
  | _, .bool b => if b then "true" else "false"
  | _, .num n => toString n
  | _, .str s => "\"" ++ escapeStr s ++ "\""
  | _, .arr [] => "[]"
  | ind, .arr (x :: xs) =>
      "[\n" ++ Json.prettyItems (ind + 2) (x :: xs) ++ "\n" ++ spaces ind ++ "]"
  | _, .obj [] => "\x7b\x7d"
  | ind, .obj (kv :: kvs) =>
      "\x7b\n" ++ Json.prettyFields (ind + 2) (kv :: kvs) ++ "\n" ++ spaces ind ++ "\x7d"

def Json.prettyItems : Nat → List Json → String
  | _, [] => ""
  | ind, [x] => spaces ind ++ Json.stringifyPretty ind x
  | ind, x :: y :: xs =>
      spaces ind ++ Json.stringifyPretty ind x ++ ",\n" ++ Json.prettyItems ind (y :: xs)

def Json.prettyFields : Nat → List (String × Json) → String
  | _, [] => ""
  | ind, [kv] =>
      spaces ind ++ "\"" ++ escapeStr kv.1 ++ "\": " ++ Json.stringifyPretty ind kv.2
  | ind, kv :: kv2 :: kvs =>
      spaces ind ++ "\"" ++ escapeStr kv.1 ++ "\": " ++ Json.stringifyPretty ind kv.2 ++
        ",\n" ++ Json.prettyFields ind (kv2 :: kvs)

end

/-- One entry of choice.message.tool_calls in the provider response
(id, type, function.name, function.arguments as a raw JSON string). -/
structure ToolCall where
  id : String
  ctype : String
  fname : String
  fargs : String

/-- choice.message of a chat-completion response: optional free-text
content (the empty string models a missing/falsy content) and the list
of tool calls (the empty list models a missing/falsy tool_calls). -/
structure ChoiceMessage where
  content : String
  tool_calls : List ToolCall

/-- One element of response.choices. -/
structure Choice where
  message : ChoiceMessage

/-- A chat-completion response (only the fields the client reads). -/
structure Response where
  choices : List Choice

/-- A conversation message (the client's ChatCompletionMessage shape). -/
structure Message where
  role : String
  content : String
  tool_call_id : Option String := none
  name : Option String := none
  tool_calls : List ToolCall := []

/-- One segment of a multi-segment MCP tool result (item.text may be
absent). -/
structure Segment where
  type : String
  text : Option String

/-- result.content of an MCP callTool result: an array of segments, a
plain string, or any other JSON value. -/
inductive ToolContent where
  | arr : List Segment → ToolContent
  | str : String → ToolContent
  | other : Json → ToolContent

/-- An MCP callTool result. -/
structure ToolResult where
  content : ToolContent

/-- The external world the client's processQuery runs against: JSON.parse,
mcp.callTool, the follow-up chat-completion call (a function of the
conversation sent), and the initial chat-completion call's outcome for
the current query. An Except.error models a thrown exception or
rejected promise. -/
structure Env where
  parseJson : String → Except String Json
  callTool : String → Json → Except String ToolResult
  followUp : List Message → Except String Response
  initialResponse : Except String Response

/-- The user-role message opening the conversation. -/
def userMessage (q : String) : Message :=
  { role := "user", content := q }

/-- choice.message pushed into the conversation (an assistant message
bearing the tool calls). -/
def assistantMessage (cm : ChoiceMessage) : Message :=
  { role := "assistant", content := cm.content, tool_calls := cm.tool_calls }

/-- Normalisation of a tool result's content into one string, exactly as
processQuery builds the tool message content: join segment texts (with
empty default) by newlines for arrays, pass strings through,
JSON.stringify anything else. -/
def normalizeContent : ToolContent → String
  | .arr segs => String.intercalate "\n" (segs.map (fun sg => sg.text.getD ""))
  | .str s => s
  | .other j => Json.stringify j

/-- Same normalisation but with the pretty two-space stringify, as used
by directToolCall. -/
def normalizePretty : ToolContent → String
  | .arr segs => String.intercalate "\n" (segs.map (fun sg => sg.text.getD ""))
  | .str s => s
  | .other j => Json.stringifyPretty 0 j

/-- The tool-role message appended for a tool result. -/
def toolMessage (tc : ToolCall) (content : String) : Message :=
  { role := "tool", content := content,
    tool_call_id := some tc.id, name := some tc.fname }

/-- toolCall.function.arguments with the JavaScript falsy default: the
empty string is replaced by an empty-object literal. -/
def argsOrDefault (s : String) : String :=
  if s = "" then "\x7b\x7d" else s

/-- The output line pushed after a successful tool invocation. -/
def toolCallLine (name : String) (args : Json) : String :=
  "[调用工具 " ++ name ++ "，参数：" ++ Json.stringify args ++ "]"

/-- The per-tool-call error line pushed by the catch around invocation
and follow-up. -/
def toolErrorLine (name : String) (msg : String) : String :=
  "[错误] 工具 " ++ name ++ " 调用失败: " ++ msg

/-- The whole-query error string returned by processQuery's outer catch. -/
def queryErrorLine (msg : String) : String :=
  "处理查询时发生错误: " ++ msg

/-- Mutable state threaded through the tool-call loop: the conversation,
the finalText output buffer and the (otherwise unused) toolResults list. -/
structure LoopState where
  msgs : List Message
  finalText : List String
  toolResults : List ToolResult

/-- Free-text content of a follow-up response's first choice, with the
truthiness checks of the source (choices nonempty, content nonempty). -/
def firstChoiceContent (r : Response) : Option String :=
  match r.choices with
  | [] => none
  | c :: _ => if c.message.content = "" then none else some c.message.content

/-- One iteration of the for-loop over choice.message.tool_calls.
JSON.parse of the arguments happens before the try block, so a parse
failure is returned as Except.error (propagating to the outer catch);
invocation and follow-up failures are caught locally and recorded as a
tool error line. -/
def runToolCall (env : Env) (cm : ChoiceMessage) (s : LoopState) (tc : ToolCall) :
    Except String LoopState :=
  if tc.ctype = "function" then
    match env.parseJson (argsOrDefault tc.fargs) with
    | .error e => .error e
    | .ok args =>
      match env.callTool tc.fname args with
      | .error e =>
          .ok { s with finalText := s.finalText ++ [toolErrorLine tc.fname e] }
      | .ok res =>
          let s1 : LoopState :=
            { msgs := s.msgs ++
                [assistantMessage cm, toolMessage tc (normalizeContent res.content)],
              finalText := s.finalText ++ [toolCallLine tc.fname args],
              toolResults := s.toolResults ++ [res] }
          match env.followUp s1.msgs with
          | .error e =>
              .ok { s1 with finalText := s1.finalText ++ [toolErrorLine tc.fname e] }
          | .ok fu =>
              match firstChoiceContent fu with
              | some t => .ok { s1 with finalText := s1.finalText ++ [t] }
              | none => .ok s1
  else .ok s

/-- The whole for-loop over the batch of tool calls. -/
def foldTools (env : Env) (cm : ChoiceMessage) :
    LoopState → List ToolCall → Except String LoopState
  | s, [] => .ok s
  | s, tc :: rest =>
    match runToolCall env cm s tc with
    | .error e => .error e
    | .ok s2 => foldTools env cm s2 rest

/-- State before the tool-call loop: conversation holds the user message,
finalText holds the choice's free-text content when truthy. -/
def initState (q : String) (cm : ChoiceMessage) : LoopState :=
  { msgs := [userMessage q],
    finalText := if cm.content = "" then [] else [cm.content],
    toolResults := [] }

/-- The client's processQuery: initial model call, at most one round of
tool calls each followed by a follow-up model call, output fragments
joined by newlines; any exception escaping the body yields the global
query error string. -/
def processQuery (env : Env) (q : String) : String :=
  match env.initialResponse with
  | .error e => queryErrorLine e
  | .ok r =>
    match r.choices with
    | [] => ""
    | c :: _ =>
      match foldTools env c.message (initState q c.message) c.message.tool_calls with
      | .error e => queryErrorLine e
      | .ok s => String.intercalate "\n" s.finalText

/-- An HTTP response as observed by makeNWSRequest: the status code, the
Retry-After header when present, and the parsed JSON body (none models
a body on which response.json() fails). -/
structure HttpResponse where
  status : Nat
  retryAfter : Option String
  body : Option Json

/-- response.ok of the fetch API: status in the 200..299 range. -/
def HttpResponse.okStatus (r : HttpResponse) : Bool :=
  200 ≤ r.status && r.status ≤ 299

/-- Whitespace-trim on character lists (the JavaScript trim, modelled
structurally so it evaluates). -/
def trimChars (cs : List Char) : List Char :=
  ((cs.dropWhile Char.isWhitespace).reverse.dropWhile Char.isWhitespace).reverse

/-- Leading decimal digits of a character list (parseInt stops at the
first non-digit). -/
def takeDigits : List Char → List Char
  | [] => []
  | c :: cs => if c.isDigit then c :: takeDigits cs else []

/-- Digit-list to number, most significant first. -/
def digitsVal (ds : List Char) : Nat :=
  List.foldl (fun a c => a * 10 + (c.toNat - 48)) 0 ds

/-- JavaScript parseInt on a trimmed string, radix 10: optional sign then
leading digits; none models NaN. -/
def jsParseInt (s : String) : Option Int :=
  let run : List Char → Option Nat := fun cs =>
    match takeDigits cs with
    | [] => none
    | ds => some (digitsVal ds)
  match trimChars s.toList with
  | '-' :: rest => (run rest).map (fun n => -(n : Int))
  | '+' :: rest => (run rest).map (fun n => (n : Int))
  | cs => (run cs).map (fun n => (n : Int))

/-- The delay in milliseconds before a 429 retry: the Retry-After header
with the falsy default of "5", converted by parseInt and scaled to
milliseconds; a NaN or negative delay behaves as zero (setTimeout
semantics). -/
def retryDelayMs (r : HttpResponse) : Nat :=
  let ra0 := r.retryAfter.getD ""
  let ra := if ra0 = "" then "5" else ra0
  match jsParseInt ra with
  | some n => if n ≤ 0 then 0 else n.toNat * 1000
  | none => 0

/-- Observable outcome of the fetch helper: the returned data (none for
an error), the total milliseconds spent waiting (the 500ms pacing delay
before each attempt plus every 429 back-off), and the number of HTTP
requests issued. -/
structure FetchOutcome where
  result : Option Json
  waitedMs : Nat
  attempts : Nat

/-- The server's makeNWSRequest helper against a fixed URL, with the
responses to successive attempts given by world. The source recursion
is unbounded on persistent 429s; the fuel argument totalises it (fuel 0
is the artificial out-of-fuel cut, never reached when some attempt is
not rate-limited within the fuel). Each attempt waits 500ms, a 429
waits the Retry-After delay and retries, any other non-ok status throws
an HttpError which the surrounding catch turns into null. -/
def makeNWSRequest (world : Nat → HttpResponse) : Nat → Nat → FetchOutcome
  | 0, _ => { result := none, waitedMs := 0, attempts := 0 }
  | fuel + 1, i =>
    let r := world i
    if r.status = 429 then
      let rest := makeNWSRequest world fuel (i + 1)
      { result := rest.result,
        waitedMs := 500 + retryDelayMs r + rest.waitedMs,
        attempts := 1 + rest.attempts }
    else if r.okStatus then
      { result := r.body, waitedMs := 500, attempts := 1 }
    else
      { result := none, waitedMs := 500, attempts := 1 }

/-- Total 429 back-off wait over the first k attempts starting at
attempt i. -/
def totalRetryWait (world : Nat → HttpResponse) : Nat → Nat → Nat
  | _, 0 => 0
  | i, k + 1 => retryDelayMs (world i) + totalRetryWait world (i + 1) k

/-- properties of one alert feature (all fields optional, as read with
falsy defaults by formatAlert). -/
structure AlertProps where
  event : Option String
  areaDesc : Option String
  severity : Option String
  status : Option String
  headline : Option String
  sent : Option Nat

/-- One feature of the alerts response. -/
structure AlertFeature where
  properties : AlertProps

/-- The alerts response body (features may be absent). -/
structure AlertsResponse where
  features : Option (List AlertFeature)

/-- JavaScript falsy-default on an optional string: absent or empty
yields the default. -/
def orFalsy (o : Option String) (d : String) : String :=
  match o with
  | some s => if s = "" then d else s
  | none => d

/-- formatAlert: one alert rendered as newline-joined labelled lines
followed by a separator. Date rendering (toLocaleString) is environment
behaviour, passed in as fmtDate; props.sent falls back to Date.now()
(and a zero timestamp is falsy, like the source's short-circuit). -/
def formatAlert (fmtDate : Nat → String) (now : Nat) (f : AlertFeature) : String :=
  let p := f.properties
  let sentVal := match p.sent with
    | some n => if n = 0 then now else n
    | none => now
  String.intercalate "\n"
    [ "发布时间: " ++ fmtDate sentVal,
      "Event: " ++ orFalsy p.event "Unknown",
      "Area: " ++ orFalsy p.areaDesc "Unknown",
      "Severity: " ++ orFalsy p.severity "Unknown",
      "Status: " ++ orFalsy p.status "Unknown",
      "Headline: " ++ orFalsy p.headline "No headline",
      "---" ]

/-- One content segment of a tool handler's response. -/
structure TextSeg where
  type : String
  text : String

/-- A tool handler's response shape. -/
structure ToolResponse where
  content : List TextSeg

/-- The NWS API base URL. -/
def NWS_API_BASE : String := "https://api.weather.gov"

/-- The get-alerts tool handler: uppercase the state code, fetch the
alerts URL through the rate-limited helper (passed in as nws, already
decoded to the alerts shape), and turn a null result into the
"Failed to retrieve alerts data" text response. -/
def getAlerts (nws : String → Option AlertsResponse) (fmtDate : Nat → String)
    (now : Nat) (state : String) : ToolResponse :=
  let stateCode := state.toUpper
  let alertsUrl := NWS_API_BASE ++ "/alerts?area=" ++ stateCode
  match nws alertsUrl with
  | none => { content := [{ type := "text", text := "Failed to retrieve alerts data" }] }
  | some alertsData =>
    let features := alertsData.features.getD []
    if features.isEmpty then
      { content := [{ type := "text", text := "No active alerts for " ++ stateCode }] }
    else
      let formatted := features.map (formatAlert fmtDate now)
      let alertsText := "Active alerts for " ++ stateCode ++ ":\n\n" ++
        String.intercalate "\n" formatted
      { content := [{ type := "text", text := alertsText }] }

/-- properties of the points response (forecast URL may be absent). -/
structure PointsProps where
  forecast : Option String

/-- The points response body (properties read with optional chaining). -/
structure PointsResponse where
  properties : Option PointsProps

/-- One forecast period (all fields read with falsy defaults). -/
structure ForecastPeriod where
  name : Option String
  temperature : Option Int
  temperatureUnit : Option String
  windSpeed : Option String
  windDirection : Option String
  shortForecast : Option String

/-- properties of the forecast response. -/
structure ForecastProps where
  periods : Option (List ForecastPeriod)

/-- The forecast response body (properties read with optional chaining). -/
structure ForecastResponse where
  properties : Option ForecastProps

/-- temperature with the falsy default: absent or zero renders 未知. -/
def tempStr (t : Option Int) : String :=
  match t with
  | some n => if n = 0 then "未知" else toString n
  | none => "未知"

/-- One forecast period rendered as newline-joined lines and a
separator, with the source's falsy defaults. -/
def formatPeriod (p : ForecastPeriod) : String :=
  String.intercalate "\n"
    [ orFalsy p.name "未知" ++ ":",
      "温度: " ++ tempStr p.temperature ++ "°" ++ orFalsy p.temperatureUnit "F",
      "风速: " ++ orFalsy p.windSpeed "未知" ++ " " ++ (p.windDirection.getD ""),
      orFalsy p.shortForecast "无可用预报",
      "---" ]

/-- A network request issued by the forecast handler, identified by its
semantic content: the points lookup for a coordinate pair, or a fetch
of the forecast URL extracted from the points data. -/
inductive NwsReq where
  | points (lat lon : ℚ)
  | url (u : String)

/-- The upstream services the forecast handler calls through the
rate-limited fetcher, already decoded to their response shapes. -/
structure ForecastEnv where
  nwsPoints : ℚ → ℚ → Option PointsResponse
  nwsForecast : String → Option ForecastResponse

/-- Coordinate rendering in handler output text (the source interpolates
the JavaScript number; no claim depends on the digits). -/
def coordStr (q : ℚ) : String := toString q

/-- The get-forecast tool handler body, paired with the list of network
requests it issues: points lookup, forecast-URL extraction, forecast
fetch, then period formatting; every null fetch result becomes a
user-visible failure text. -/
def getForecastHandler (env : ForecastEnv) (lat lon : ℚ) :
    ToolResponse × List NwsReq :=
  match env.nwsPoints lat lon with
  | none =>
    let failText := "无法获取坐标(" ++ coordStr lat ++ ", " ++ coordStr lon ++
      ")的网格点数据。该位置可能不受NWS API支持（仅支持美国地区）。"
    ({ content := [{ type := "text", text := failText }] },
      [NwsReq.points lat lon])
  | some pointsData =>
    match pointsData.properties.bind (fun pr => pr.forecast) with
    | none =>
      ({ content := [{ type := "text", text := "无法从网格点数据中获取天气预报URL" }] },
        [NwsReq.points lat lon])
    | some forecastUrl =>
      match env.nwsForecast forecastUrl with
      | none =>
        ({ content := [{ type := "text", text := "无法获取天气预报数据" }] },
          [NwsReq.points lat lon, NwsReq.url forecastUrl])
      | some forecastData =>
        let periods := (forecastData.properties.bind (fun pr => pr.periods)).getD []
        if periods.isEmpty then
          ({ content := [{ type := "text", text := "没有可用的天气预报周期数据" }] },
            [NwsReq.points lat lon, NwsReq.url forecastUrl])
        else
          let forecastText := "位置(" ++ coordStr lat ++ ", " ++ coordStr lon ++
            ")的天气预报:\n\n" ++ String.intercalate "\n" (periods.map formatPeriod)
          ({ content := [{ type := "text", text := forecastText }] },
            [NwsReq.points lat lon, NwsReq.url forecastUrl])

/-- The continental-US latitude lower bound of the get-forecast schema. -/
def latMin : ℚ := 24396308 / 1000000

/-- The continental-US latitude upper bound of the get-forecast schema. -/
def latMax : ℚ := 49384358 / 1000000

/-- The continental-US longitude lower bound of the get-forecast schema. -/
def lonMin : ℚ := -124848974 / 1000000

/-- The continental-US longitude upper bound of the get-forecast schema. -/
def lonMax : ℚ := -66885444 / 1000000

/-- The zod input schema of get-forecast as a predicate: latitude in
min(24.396308)..max(49.384358), longitude in
min(-124.848974)..max(-66.885444). -/
def validForecastArgs (lat lon : ℚ) : Bool :=
  (latMin ≤ lat && lat ≤ latMax) && (lonMin ≤ lon && lon ≤ lonMax)

/-- Modelled from the spec: the MCP server SDK (not under src/) validates
tool arguments against the registered zod schema before invoking the
handler, rejecting the call — and issuing no network request — when
validation fails. The schema bounds themselves are from src. -/
def getForecastTool (env : ForecastEnv) (lat lon : ℚ) :
    Except String ToolResponse × List NwsReq :=
  if validForecastArgs lat lon then
    let hr := getForecastHandler env lat lon
    (.ok hr.1, hr.2)
  else
    (.error "Invalid arguments", [])

/-- Leading-match test for character lists. -/
def isPre : List Char → List Char → Bool
  | [], _ => true
  | _ :: _, [] => false
  | a :: as, b :: bs => a == b && isPre as bs

/-- Substring test for character lists. -/
def hasSub (n : List Char) : List Char → Bool
  | [] => isPre n []
  | b :: bs => isPre n (b :: bs) || hasSub n bs

/-- The JavaScript toLowerCase, modelled per character so it evaluates. -/
def jsToLower (s : String) : String :=
  String.mk (s.toList.map Char.toLower)

/-- The JavaScript startsWith. -/
def jsStartsWith (s p : String) : Bool :=
  isPre p.toList s.toList

/-- The JavaScript split(" ") on character lists: split at every single
space, keeping empty fragments. -/
def splitSpaces : List Char → List (List Char)
  | [] => [[]]
  | c :: cs =>
    let r := splitSpaces cs
    if c = ' ' then [] :: r
    else
      match r with
      | [] => [[c]]
      | w :: ws => (c :: w) :: ws

/-- The JavaScript join(" ") on character-list fragments. -/
def joinSpaces : List (List Char) → List Char
  | [] => []
  | [w] => w
  | w :: w2 :: ws => w ++ ' ' :: joinSpaces (w2 :: ws)

/-- The action one interactive-loop iteration dispatches to. -/
inductive ChatAction where
  | quit
  | setLogLevel (lvl : String)
  | directCall (name : String) (args : Json) (parseWarned : Bool)
  | orchestrate (q : String)

/-- One iteration of the chat loop's dispatch on the input line:
case-insensitive quit breaks the loop, debug/info toggle the log level,
a tool: prefix parses a direct tool call (name, then remaining words
re-joined and JSON-parsed with an empty-object fallback that only
warns), anything else goes to processQuery. -/
def chatStep (parseJson : String → Except String Json) (line : String) : ChatAction :=
  if jsToLower line = "quit" then .quit
  else if jsToLower line = "debug" then .setLogLevel "debug"
  else if jsToLower line = "info" then .setLogLevel "info"
  else if jsStartsWith line "tool:" then
    let toolParts := splitSpaces (trimChars (line.toList.drop 5))
    let toolName := String.mk (toolParts.headD [])
    if toolParts.length > 1 then
      match parseJson (String.mk (joinSpaces toolParts.tail)) with
      | .ok j => .directCall toolName j false
      | .error _ => .directCall toolName (Json.obj []) true
    else .directCall toolName (Json.obj []) false
  else .orchestrate line

/-- The client's directToolCall: invoke the tool, render its normalised
(pretty-stringified) result, or render a failure line on error. -/
def directToolCall (callTool : String → Json → Except String ToolResult)
    (name : String) (args : Json) : String :=
  match callTool name args with
  | .ok result => "工具 " ++ name ++ " 调用结果:\n" ++ normalizePretty result.content
  | .error e => "调用工具 " ++ name ++ " 失败: " ++ e

/-- Number of tool-role messages in a conversation carrying a given
tool_call_id. -/
def countToolMsgs (ms : List Message) (i : String) : Nat :=
  (ms.filter (fun m => m.role == "tool" && m.tool_call_id == some i)).length

/-- Joining a one-element buffer is the element itself. -/
theorem intercalate_singleton (s x : String) : String.intercalate s [x] = x := rfl

/-- Joining an empty buffer is the empty string. -/
theorem intercalate_nil (s : String) : String.intercalate s [] = "" := rfl

/-- On the success path (function-typed call, arguments parsed, tool
invocation succeeded), runToolCall returns ok and appends exactly the
assistant message and the tool-role message to the conversation,
whatever the follow-up model call does. -/
theorem runToolCall_ok_msgs (env : Env) (cm : ChoiceMessage) (s : LoopState)
    (tc : ToolCall) (a : Json) (res : ToolResult)
    (hty : tc.ctype = "function")
    (hp : env.parseJson (argsOrDefault tc.fargs) = .ok a)
    (hct : env.callTool tc.fname a = .ok res) :
    ∃ s2, runToolCall env cm s tc = .ok s2 ∧
      s2.msgs = s.msgs ++
        [assistantMessage cm, toolMessage tc (normalizeContent res.content)] := by
  simp only [runToolCall, hty, if_pos, hp, hct]
  cases hfu : env.followUp (s.msgs ++
      [assistantMessage cm, toolMessage tc (normalizeContent res.content)]) with
  | error e => exact ⟨_, rfl, rfl⟩
  | ok fu =>
    dsimp only
    cases hfc : firstChoiceContent fu with
    | none => exact ⟨_, rfl, rfl⟩
    | some t => exact ⟨_, rfl, rfl⟩

/-- Claim C4: for every query whose model response has a first choice
carrying text content and no tool calls, processQuery returns exactly
that content, unchanged. -/
theorem text_only_response_verbatim (env : Env) (q : String) (r : Response)
    (c : Choice) (cs : List Choice)
    (hr : env.initialResponse = .ok r) (hc : r.choices = c :: cs)
    (ht : c.message.tool_calls = []) :
    processQuery env q = c.message.content := by
  by_cases h : c.message.content = ""
  · simp [processQuery, hr, hc, ht, foldTools, initState, h, intercalate_nil]
  · simp [processQuery, hr, hc, ht, foldTools, initState, h, intercalate_singleton]

/-- Claim C4 witness: a response whose only choice says hello with no
tool calls makes processQuery return hello. -/
theorem text_only_response_verbatim_witness :
    processQuery
      { parseJson := fun _ => .error "unused",
        callTool := fun _ _ => .error "unused",
        followUp := fun _ => .error "unused",
        initialResponse := .ok
          { choices := [{ message := { content := "hello", tool_calls := [] } }] } }
      "hi" = "hello" :=
  text_only_response_verbatim _ "hi" _ _ _ rfl rfl rfl

/-- Claim C2: inside the tool-call batch, a failed MCP invocation, or a
failed follow-up model call, appends the per-tool error line naming the
tool to the output buffer and the fold continues with the remaining
tool calls; the batch is never aborted by such a failure. -/
theorem tool_failure_continues_batch (env : Env) (cm : ChoiceMessage) (s : LoopState)
    (tc : ToolCall) (rest : List ToolCall) (a : Json)
    (hty : tc.ctype = "function")
    (hp : env.parseJson (argsOrDefault tc.fargs) = .ok a) :
    (∀ m, env.callTool tc.fname a = .error m →
      foldTools env cm s (tc :: rest) =
        foldTools env cm
          { s with finalText := s.finalText ++ [toolErrorLine tc.fname m] } rest) ∧
    (∀ res m, env.callTool tc.fname a = .ok res →
      env.followUp (s.msgs ++
        [assistantMessage cm, toolMessage tc (normalizeContent res.content)]) = .error m →
      foldTools env cm s (tc :: rest) =
        foldTools env cm
          { msgs := s.msgs ++
              [assistantMessage cm, toolMessage tc (normalizeContent res.content)],
            finalText := s.finalText ++ [toolCallLine tc.fname a, toolErrorLine tc.fname m],
            toolResults := s.toolResults ++ [res] } rest) := by
  constructor
  · intro m hm
    simp [foldTools, runToolCall, hty, hp, hm]
  · intro res m hres hfu
    simp [foldTools, runToolCall, hty, hp, hres, hfu]

/-- Claim C2 witness: with a tool that always throws, the batch records
the error line and continues. -/
theorem tool_failure_continues_batch_witness :
    foldTools
      { parseJson := fun _ => .ok (Json.obj []),
        callTool := fun _ _ => .error "boom",
        followUp := fun _ => .error "unused",
        initialResponse := .error "unused" }
      { content := "", tool_calls := [] }
      { msgs := [], finalText := [], toolResults := [] }
      [{ id := "1", ctype := "function", fname := "echo", fargs := "" }] =
    foldTools
      { parseJson := fun _ => .ok (Json.obj []),
        callTool := fun _ _ => .error "boom",
        followUp := fun _ => .error "unused",
        initialResponse := .error "unused" }
      { content := "", tool_calls := [] }
      { msgs := [], finalText := [toolErrorLine "echo" "boom"], toolResults := [] }
      [] :=
  (tool_failure_continues_batch _ _ _ _ [] (Json.obj []) rfl rfl).1 "boom" rfl

/-- Claim C7: a successful tool call appends to the conversation the
assistant message followed by a tool-role message carrying the call's
id, the tool name and the normalised result content, where
normalisation joins segment texts by newlines, passes strings through,
and JSON-stringifies anything else. -/
theorem tool_result_normalization_message (env : Env) (cm : ChoiceMessage)
    (s : LoopState) (tc : ToolCall) (a : Json) (res : ToolResult) (s2 : LoopState)
    (hty : tc.ctype = "function")
    (hp : env.parseJson (argsOrDefault tc.fargs) = .ok a)
    (hct : env.callTool tc.fname a = .ok res)
    (hrun : runToolCall env cm s tc = .ok s2) :
    s2.msgs = s.msgs ++
      [assistantMessage cm, toolMessage tc (normalizeContent res.content)] ∧
    (toolMessage tc (normalizeContent res.content)).role = "tool" ∧
    (toolMessage tc (normalizeContent res.content)).tool_call_id = some tc.id ∧
    (toolMessage tc (normalizeContent res.content)).name = some tc.fname ∧
    (toolMessage tc (normalizeContent res.content)).content = normalizeContent res.content ∧
    (∀ segs, normalizeContent (.arr segs) =
      String.intercalate "\n" (segs.map (fun sg => sg.text.getD ""))) ∧
    (∀ s0, normalizeContent (.str s0) = s0) ∧
    (∀ j, normalizeContent (.other j) = Json.stringify j) := by
  obtain ⟨s2w, hw, hmsgs⟩ := runToolCall_ok_msgs env cm s tc a res hty hp hct
  rw [hrun] at hw
  cases hw
  exact ⟨hmsgs, rfl, rfl, rfl, rfl, fun _ => rfl, fun _ => rfl, fun _ => rfl⟩

/-- Claim C7 witness: a two-segment result is flattened with a newline
and lands in a tool message carrying id and name. -/
theorem tool_result_normalization_message_witness :
    ({ msgs := [assistantMessage { content := "", tool_calls := [] },
        toolMessage { id := "7", ctype := "function", fname := "w", fargs := "" }
          (normalizeContent (.arr [{ type := "text", text := some "x" },
            { type := "text", text := none }]))],
       finalText := [toolCallLine "w" (Json.obj [])],
       toolResults := [{ content := .arr [{ type := "text", text := some "x" },
         { type := "text", text := none }] }] } : LoopState).msgs =
      ([] : List Message) ++
        [assistantMessage { content := "", tool_calls := [] },
         toolMessage { id := "7", ctype := "function", fname := "w", fargs := "" }
           (normalizeContent (.arr [{ type := "text", text := some "x" },
             { type := "text", text := none }]))] :=
  (tool_result_normalization_message
    { parseJson := fun _ => .ok (Json.obj []),
      callTool := fun _ _ => .ok { content := .arr [{ type := "text", text := some "x" },
        { type := "text", text := none }] },
      followUp := fun _ => .ok { choices := [] },
      initialResponse := .error "unused" }
    { content := "", tool_calls := [] }
    { msgs := [], finalText := [], toolResults := [] }
    { id := "7", ctype := "function", fname := "w", fargs := "" }
    (Json.obj [])
    { content := .arr [{ type := "text", text := some "x" },
      { type := "text", text := none }] }
    _ rfl rfl rfl rfl).1

/-- A tool call whose JSON arguments do not parse. -/
def tcBadArgs : ToolCall :=
  { id := "1", ctype := "function", fname := "alpha", fargs := "oops" }

/-- A second, well-formed tool call in the same batch. -/
def tcGoodArgs : ToolCall :=
  { id := "2", ctype := "function", fname := "beta", fargs := "" }

/-- Environment for the argument-parse-failure scenario: the model
response requests two tool calls, the first with unparseable arguments;
the second tool would succeed with a distinctive result that the
follow-up call would echo into the output. -/
def envParseFail : Env :=
  { parseJson := fun s => if s = "\x7b\x7d" then .ok (Json.obj []) else .error "bad",
    callTool := fun _ _ => .ok { content := .str "GOODRESULT" },
    followUp := fun _ => .ok
      { choices := [{ message := { content := "GOODRESULT", tool_calls := [] } }] },
    initialResponse := .ok
      { choices := [{ message := { content := "", tool_calls := [tcBadArgs, tcGoodArgs] } }] } }

/-- Claim C1 counterexample: with two tool calls whose first has
unparseable JSON arguments, processQuery returns only the global query
error string; the output names neither the failing tool (alpha) nor any
trace of the second call (whose result GOODRESULT would have reached
the output had it executed), so the parse failure is fatal to the whole
query, not just to that one call. -/
theorem parse_failure_batch_cex :
    processQuery envParseFail "hi" = "处理查询时发生错误: bad" ∧
    hasSub "alpha".toList (processQuery envParseFail "hi").toList = false ∧
    hasSub "GOODRESULT".toList (processQuery envParseFail "hi").toList = false :=
  ⟨rfl, rfl, rfl⟩

/-- Claim C1 (amended): a JSON argument-parse failure on a function-typed
tool call aborts the whole batch immediately — the fold over the tool
calls raises the parse error, no later call runs — and processQuery
then returns the single global error string for that message instead of
the output buffer. -/
theorem parse_failure_aborts_query (env : Env) (q : String) (r : Response)
    (c : Choice) (cs : List Choice) (e : String)
    (hr : env.initialResponse = .ok r) (hc : r.choices = c :: cs)
    (hf : foldTools env c.message (initState q c.message) c.message.tool_calls = .error e) :
    processQuery env q = queryErrorLine e ∧
    (∀ s tc rest, tc.ctype = "function" →
      env.parseJson (argsOrDefault tc.fargs) = .error e →
      foldTools env c.message s (tc :: rest) = .error e) := by
  constructor
  · simp [processQuery, hr, hc, hf]
  · intro s tc rest hty hpe
    simp [foldTools, runToolCall, hty, hpe]

/-- Claim C1 witness: the amended behaviour on the concrete two-call
batch above. -/
theorem parse_failure_aborts_query_witness :
    processQuery envParseFail "hi" = queryErrorLine "bad" :=
  (parse_failure_aborts_query envParseFail "hi" _ _ _ "bad" rfl rfl rfl).1

/-- First tool call of the two-call conversation-shape scenario. -/
def tcFirst : ToolCall := { id := "A", ctype := "function", fname := "a", fargs := "" }

/-- Second tool call of the two-call conversation-shape scenario. -/
def tcSecond : ToolCall := { id := "B", ctype := "function", fname := "b", fargs := "" }

/-- The assistant message of the two-call scenario. -/
def cmTwoCalls : ChoiceMessage := { content := "", tool_calls := [tcFirst, tcSecond] }

/-- Environment whose follow-up model call reports, through its text
content, whether the conversation it was sent contains any tool-role
message answering request B. -/
def envTwoCalls : Env :=
  { parseJson := fun _ => .ok (Json.obj []),
    callTool := fun n _ => .ok { content := .str ("R" ++ n) },
    followUp := fun ms => .ok { choices := [{ message :=
      { content := if countToolMsgs ms "B" = 0 then "B-UNANSWERED" else "B-ANSWERED",
        tool_calls := [] } }] },
    initialResponse := .ok { choices := [{ message := cmTwoCalls }] } }

/-- Claim C3 counterexample: in a batch of two tool calls (ids A and B),
the follow-up model call issued after processing call A receives a
conversation in which request B — already appended inside the assistant
message — has no tool-role message: the observing follow-up reports
B-UNANSWERED at that model call. So it is not true that every tool-call
request appended to the conversation is followed by exactly one
tool-role message with its id before the next model call. -/
theorem tool_message_invariant_cex :
    processQuery envTwoCalls "q" =
      "[调用工具 a，参数：\x7b\x7d]\nB-UNANSWERED\n[调用工具 b，参数：\x7b\x7d]\nB-ANSWERED" ∧
    hasSub "B-UNANSWERED".toList (processQuery envTwoCalls "q").toList = true :=
  ⟨rfl, rfl⟩

/-- Claim C3 (amended): for a response with exactly one tool call with
valid JSON arguments whose invocation succeeds, the conversation after
processing is, in order, the user message, the assistant message
bearing the tool call, and a tool-role message whose tool_call_id is
the call's id — and that id is carried by exactly one tool-role
message. (The counterexample above shows the batch-wide invariant fails
for batches of two or more calls.) -/
theorem single_tool_call_conversation (env : Env) (q : String) (r : Response)
    (c : Choice) (cs : List Choice) (tc : ToolCall) (a : Json) (res : ToolResult)
    (hr : env.initialResponse = .ok r) (hc : r.choices = c :: cs)
    (hcalls : c.message.tool_calls = [tc])
    (hty : tc.ctype = "function")
    (hp : env.parseJson (argsOrDefault tc.fargs) = .ok a)
    (hct : env.callTool tc.fname a = .ok res) :
    ∃ s, foldTools env c.message (initState q c.message) c.message.tool_calls = .ok s ∧
      s.msgs = [userMessage q, assistantMessage c.message,
        toolMessage tc (normalizeContent res.content)] ∧
      (toolMessage tc (normalizeContent res.content)).tool_call_id = some tc.id ∧
      (assistantMessage c.message).tool_calls = [tc] ∧
      countToolMsgs s.msgs tc.id = 1 := by
  obtain ⟨s2, hrun, hmsgs⟩ :=
    runToolCall_ok_msgs env c.message (initState q c.message) tc a res hty hp hct
  refine ⟨s2, ?_, ?_, rfl, ?_, ?_⟩
  · rw [hcalls]
    simp [foldTools, hrun]
  · simpa [initState] using hmsgs
  · simp [assistantMessage, hcalls]
  · rw [hmsgs]
    simp [countToolMsgs, initState, userMessage, assistantMessage, toolMessage]

/-- Claim C3 witness: the amended single-call conversation shape at a
concrete environment. -/
theorem single_tool_call_conversation_witness :
    ∃ s, foldTools
        { parseJson := fun _ => .ok (Json.obj []),
          callTool := fun _ _ => .ok { content := .str "res" },
          followUp := fun _ => .ok { choices := [] },
          initialResponse := .ok { choices :=
            [{ message := { content := "", tool_calls :=
              [{ id := "A", ctype := "function", fname := "a", fargs := "" }] } }] } }
        { content := "", tool_calls :=
          [{ id := "A", ctype := "function", fname := "a", fargs := "" }] }
        (initState "q" { content := "", tool_calls :=
          [{ id := "A", ctype := "function", fname := "a", fargs := "" }] })
        [{ id := "A", ctype := "function", fname := "a", fargs := "" }] = .ok s ∧
      s.msgs = [userMessage "q",
        assistantMessage { content := "", tool_calls :=
          [{ id := "A", ctype := "function", fname := "a", fargs := "" }] },
        toolMessage { id := "A", ctype := "function", fname := "a", fargs := "" }
          (normalizeContent (.str "res"))] ∧
      (toolMessage { id := "A", ctype := "function", fname := "a", fargs := "" }
        (normalizeContent (.str "res"))).tool_call_id = some "A" ∧
      (assistantMessage { content := "", tool_calls :=
        [{ id := "A", ctype := "function", fname := "a", fargs := "" }] }).tool_calls =
        [{ id := "A", ctype := "function", fname := "a", fargs := "" }] ∧
      countToolMsgs s.msgs "A" = 1 :=
  single_tool_call_conversation _ "q" _ _ [] _ (Json.obj []) _ rfl rfl rfl rfl rfl rfl

/-- Unfolding of makeNWSRequest along a run of k consecutive 429
responses starting at attempt i, ending at the first non-rate-limited
attempt, for any sufficient fuel. -/
theorem makeNWSRequest_run (world : Nat → HttpResponse) :
    ∀ k i fuel, (∀ j, j < k → (world (i + j)).status = 429) →
      (world (i + k)).status ≠ 429 → (world (i + k)).okStatus = true →
      k + 1 ≤ fuel →
      makeNWSRequest world fuel i =
        { result := (world (i + k)).body,
          waitedMs := 500 * (k + 1) + totalRetryWait world i k,
          attempts := k + 1 } := by
  intro k
  induction k with
  | zero =>
    intro i fuel h429 hne hok hf
    obtain ⟨f, rfl⟩ : ∃ f, fuel = f + 1 := ⟨fuel - 1, by omega⟩
    rw [Nat.add_zero] at hne hok
    simp [makeNWSRequest, hne, hok, totalRetryWait]
  | succ k ih =>
    intro i fuel h429 hne hok hf
    obtain ⟨f, rfl⟩ : ∃ f, fuel = f + 1 := ⟨fuel - 1, by omega⟩
    have h0 : (world i).status = 429 := by
      have h1 := h429 0 (by omega)
      rwa [Nat.add_zero] at h1
    have hshift : i + (k + 1) = (i + 1) + k := by omega
    rw [hshift] at hne hok
    have hrec := ih (i + 1) f
      (fun j hj => by
        have h1 := h429 (j + 1) (by omega)
        have h2 : i + (j + 1) = (i + 1) + j := by omega
        rwa [h2] at h1)
      hne hok (by omega)
    show makeNWSRequest world (f + 1) i = _
    unfold makeNWSRequest
    simp only [h0, if_pos, hrec, totalRetryWait]
    rw [hshift]
    simp only [FetchOutcome.mk.injEq]
    refine ⟨trivial, by omega, by omega⟩

/-- Claim C5: when the first k attempts are rate-limited (status 429)
and attempt k is then successful, the fetch helper (for any fuel
covering those attempts, modelling the source's unbounded recursion)
returns the data of the retried successful call, having issued exactly
k + 1 requests and waited the 500ms pacing delay per attempt plus every
Retry-After back-off; the back-off is 5000ms when the header is absent
and 2000ms for a Retry-After of 2 — and k is arbitrary, so no retry
count bounds the recursion. -/
theorem rate_limit_retry_resumes (world : Nat → HttpResponse) (k : Nat)
    (h429 : ∀ j, j < k → (world j).status = 429)
    (hne : (world k).status ≠ 429) (hok : (world k).okStatus = true) :
    (∀ fuel, k + 1 ≤ fuel →
      makeNWSRequest world fuel 0 =
        { result := (world k).body,
          waitedMs := 500 * (k + 1) + totalRetryWait world 0 k,
          attempts := k + 1 }) ∧
    (∀ r : HttpResponse, r.retryAfter = none → retryDelayMs r = 5000) ∧
    (∀ r : HttpResponse, r.retryAfter = some "2" → retryDelayMs r = 2000) := by
  refine ⟨?_, ?_, ?_⟩
  · intro fuel hf
    have h := makeNWSRequest_run world k 0 fuel
      (fun j hj => by simpa using h429 j hj)
      (by simpa using hne) (by simpa using hok) hf
    simpa using h
  · intro r h
    unfold retryDelayMs
    rw [h]
    decide
  · intro r h
    unfold retryDelayMs
    rw [h]
    decide

/-- The world of the C5 witness: attempt 0 is rate-limited with
Retry-After 2, attempt 1 succeeds with distinctive data. -/
def worldRetry : Nat → HttpResponse := fun j =>
  if j = 0 then { status := 429, retryAfter := some "2", body := none }
  else { status := 200, retryAfter := none, body := some (Json.str "DATA") }

/-- Claim C5 witness: one 429 with Retry-After 2, then success: two
requests, 500 + 2000 + 500 = 3000ms waited, and the retried call's
data returned. -/
theorem rate_limit_retry_resumes_witness :
    makeNWSRequest worldRetry 2 0 =
      { result := some (Json.str "DATA"), waitedMs := 3000, attempts := 2 } := by
  have h := (rate_limit_retry_resumes worldRetry 1
    (fun j hj => by
      have hj0 : j = 0 := by omega
      subst hj0
      rfl)
    (by decide) rfl).1 2 (by omega)
  rw [h]
  rfl

/-- Claim C6: a non-success, non-429 HTTP status makes the fetch helper
yield a null result (never an exception: the helper's outcome type has
no failure channel other than none), and the get-alerts handler turns a
null fetch result into the user-visible "Failed to retrieve alerts
data" text response. -/
theorem http_error_null_then_failure_text :
    (∀ (world : Nat → HttpResponse) (fuel i : Nat),
      (world i).status ≠ 429 → (world i).okStatus = false →
      makeNWSRequest world (fuel + 1) i =
        { result := none, waitedMs := 500, attempts := 1 }) ∧
    (∀ (nws : String → Option AlertsResponse) (fmtDate : Nat → String)
        (now : Nat) (st : String),
      nws (NWS_API_BASE ++ "/alerts?area=" ++ st.toUpper) = none →
      getAlerts nws fmtDate now st =
        { content := [{ type := "text", text := "Failed to retrieve alerts data" }] }) := by
  constructor
  · intro world fuel i hne hok
    unfold makeNWSRequest
    simp [hne, hok]
  · intro nws fmtDate now st h
    simp [getAlerts, h]

/-- Claim C6 witness: a world answering 503 to every attempt yields
null, and an alerts fetcher returning null yields the failure text. -/
theorem http_error_null_then_failure_text_witness :
    makeNWSRequest (fun _ => { status := 503, retryAfter := none, body := none }) 1 0 =
      { result := none, waitedMs := 500, attempts := 1 } ∧
    getAlerts (fun _ => none) (fun _ => "") 0 "ca" =
      { content := [{ type := "text", text := "Failed to retrieve alerts data" }] } :=
  ⟨(http_error_null_then_failure_text).1
      (fun _ => { status := 503, retryAfter := none, body := none }) 0 0 (by decide) rfl,
    (http_error_null_then_failure_text).2 (fun _ => none) (fun _ => "") 0 "ca" rfl⟩

/-- Claim C8: arguments outside the schema's continental-US bounding box
are rejected before the handler runs — the tool call fails validation
and its list of issued network requests is empty. -/
theorem forecast_bounds_reject_before_network (env : ForecastEnv) (lat lon : ℚ)
    (h : ¬ (latMin ≤ lat ∧ lat ≤ latMax) ∨ ¬ (lonMin ≤ lon ∧ lon ≤ lonMax)) :
    getForecastTool env lat lon = (.error "Invalid arguments", []) := by
  have hv : validForecastArgs lat lon = false := by
    cases hb : validForecastArgs lat lon with
    | false => rfl
    | true =>
      exfalso
      simp only [validForecastArgs, Bool.and_eq_true, decide_eq_true_eq] at hb
      rcases h with h | h
      · exact h ⟨hb.1.1, hb.1.2⟩
      · exact h ⟨hb.2.1, hb.2.2⟩
  unfold getForecastTool
  rw [hv]
  rfl

/-- Claim C8 witness: latitude 0 is below the 24.396308 lower bound, so
the call is rejected with no network request. -/
theorem forecast_bounds_reject_before_network_witness :
    getForecastTool { nwsPoints := fun _ _ => none, nwsForecast := fun _ => none }
      0 (-100) = (.error "Invalid arguments", []) :=
  forecast_bounds_reject_before_network _ 0 (-100)
    (Or.inl (by
      intro hcontra
      have h1 := hcontra.1
      norm_num [latMin] at h1))

/-- splitSpaces always yields at least one fragment (the JavaScript
split never returns an empty array). -/
theorem splitSpaces_ne_nil (l : List Char) : splitSpaces l ≠ [] := by
  cases l with
  | nil => simp [splitSpaces]
  | cons c cs =>
    simp only [splitSpaces]
    split
    · simp
    · split <;> simp

/-- A fragment without spaces splits into itself alone. -/
theorem splitSpaces_no_space (l : List Char) (h : ' ' ∉ l) : splitSpaces l = [l] := by
  induction l with
  | nil => rfl
  | cons c cs ih =>
    have hc : ¬ c = ' ' := fun hcc => h (hcc ▸ List.mem_cons_self c cs)
    have hcs : ' ' ∉ cs := fun hm => h (List.mem_cons_of_mem c hm)
    simp only [splitSpaces, ih hcs]
    rw [if_neg hc]

/-- Splitting a space-free fragment followed by a space and a tail
peels off exactly that fragment. -/
theorem splitSpaces_append_space (n : List Char) (hn : ' ' ∉ n) (t : List Char) :
    splitSpaces (n ++ ' ' :: t) = n :: splitSpaces t := by
  induction n with
  | nil => simp [splitSpaces]
  | cons c cs ih =>
    have hc : ¬ c = ' ' := fun hcc => hn (hcc ▸ List.mem_cons_self c cs)
    have hcs : ' ' ∉ cs := fun hm => hn (List.mem_cons_of_mem c hm)
    simp only [List.cons_append, splitSpaces, List.append_eq, ih hcs]
    rw [if_neg hc]

/-- Rebuilding a string from its character list gives it back. -/
theorem mk_toList (s : String) : String.mk s.toList = s := rfl

/-- join(" ") is a left inverse of split(" "). -/
theorem joinSpaces_splitSpaces (l : List Char) : joinSpaces (splitSpaces l) = l := by
  induction l with
  | nil => rfl
  | cons c cs ih =>
    obtain ⟨w, ws, hw⟩ : ∃ w ws, splitSpaces cs = w :: ws := by
      cases hsp : splitSpaces cs with
      | nil => exact absurd hsp (splitSpaces_ne_nil cs)
      | cons w ws => exact ⟨w, ws, rfl⟩
    by_cases hc : c = ' '
    · subst hc
      simp only [splitSpaces, if_pos rfl, hw]
      show joinSpaces ([] :: w :: ws) = ' ' :: cs
      simp only [joinSpaces, List.nil_append]
      rw [← hw] at *
      rw [ih]
    · simp only [splitSpaces, if_neg hc, hw]
      cases ws with
      | nil =>
        show joinSpaces [c :: w] = c :: cs
        have hwcs : w = cs := by
          rw [hw] at ih
          simpa [joinSpaces] using ih
        simp [joinSpaces, hwcs]
      | cons w2 ws2 =>
        show joinSpaces ((c :: w) :: w2 :: ws2) = c :: cs
        have : joinSpaces ((c :: w) :: w2 :: ws2) = c :: joinSpaces (w :: w2 :: ws2) := by
          simp [joinSpaces]
        rw [this, ← hw, ih]

/-- General dispatch equation for a well-formed direct tool line: for
every tool name without spaces and every argument string (the payload
after the tool: prefix being already trimmed), the loop parses the
argument portion and dispatches a direct call of that tool — with the
parsed JSON on success, or with the empty object and the warning flag
on a parse failure. -/
theorem chatStep_tool_line (pj : String → Except String Json) (name args : String)
    (hn : ' ' ∉ name.toList)
    (ht : trimChars (name.toList ++ ' ' :: args.toList) =
      name.toList ++ ' ' :: args.toList) :
    chatStep pj ("tool:" ++ name ++ " " ++ args) =
      (match pj args with
       | .ok j => ChatAction.directCall name j false
       | .error _ => ChatAction.directCall name (Json.obj []) true) := by
  have hlist : ("tool:" ++ name ++ " " ++ args).toList =
      't' :: 'o' :: 'o' :: 'l' :: ':' :: (name.toList ++ ' ' :: args.toList) := by
    simp [String.toList, String.data_append]
  have hq : ¬ jsToLower ("tool:" ++ name ++ " " ++ args) = "quit" := by
    intro h
    have hd := congrArg String.data h
    simp [jsToLower, hlist] at hd
  have hdbg : ¬ jsToLower ("tool:" ++ name ++ " " ++ args) = "debug" := by
    intro h
    have hd := congrArg String.data h
    simp [jsToLower, hlist] at hd
  have hinfo : ¬ jsToLower ("tool:" ++ name ++ " " ++ args) = "info" := by
    intro h
    have hd := congrArg String.data h
    simp [jsToLower, hlist] at hd
  have hpre : jsStartsWith ("tool:" ++ name ++ " " ++ args) "tool:" = true := by
    simp [jsStartsWith, hlist, isPre]
  obtain ⟨w, ws, hw⟩ : ∃ w ws, splitSpaces args.toList = w :: ws := by
    cases hsp : splitSpaces args.toList with
    | nil => exact absurd hsp (splitSpaces_ne_nil args.toList)
    | cons w ws => exact ⟨w, ws, rfl⟩
  have hdrop : ("tool:" ++ name ++ " " ++ args).toList.drop 5 =
      name.toList ++ ' ' :: args.toList := by
    simp [hlist]
  have hjoin : String.mk (joinSpaces (w :: ws)) = args := by
    rw [← hw, joinSpaces_splitSpaces, mk_toList]
  simp only [chatStep, if_neg hq, if_neg hdbg, if_neg hinfo, hpre, if_pos, hdrop, ht,
    splitSpaces_append_space name.toList hn args.toList, hw, List.headD_cons,
    List.tail_cons]
  have hlen : (name.toList :: w :: ws).length > 1 := by simp
  rw [if_pos hlen, hjoin]
  rfl

/-- Claim C9: every line whose lowercase form is quit makes the loop
dispatch quit (terminating without reaching the orchestrator — the
orchestrate action is a different constructor); every well-formed
tool:<name> json-args line whose argument portion parses dispatches a
direct call of that tool with the parsed arguments, every tool:<name>
line without arguments dispatches a direct call with the empty object,
bypassing the model in both cases; and every successful direct call
prints the tool's normalised (pretty-stringified) result. -/
theorem chat_loop_quit_and_direct_tool (pj : String → Except String Json)
    (ct : String → Json → Except String ToolResult) :
    (∀ line, jsToLower line = "quit" → chatStep pj line = .quit) ∧
    (∀ name args j, ' ' ∉ name.toList →
      trimChars (name.toList ++ ' ' :: args.toList) = name.toList ++ ' ' :: args.toList →
      pj args = .ok j →
      chatStep pj ("tool:" ++ name ++ " " ++ args) = .directCall name j false) ∧
    (∀ name, ' ' ∉ name.toList → trimChars name.toList = name.toList →
      chatStep pj ("tool:" ++ name) = .directCall name (Json.obj []) false) ∧
    (∀ name args res, ct name args = .ok res →
      directToolCall ct name args =
        "工具 " ++ name ++ " 调用结果:\n" ++ normalizePretty res.content) := by
  refine ⟨?_, ?_, ?_, ?_⟩
  · intro line h
    simp [chatStep, h]
  · intro name args j hn ht hj
    rw [chatStep_tool_line pj name args hn ht, hj]
  · intro name hn ht
    have hlist : ("tool:" ++ name).toList =
        't' :: 'o' :: 'o' :: 'l' :: ':' :: name.toList := by
      simp [String.toList, String.data_append]
    have hq : ¬ jsToLower ("tool:" ++ name) = "quit" := by
      intro h
      have hd := congrArg String.data h
      simp [jsToLower, hlist] at hd
    have hdbg : ¬ jsToLower ("tool:" ++ name) = "debug" := by
      intro h
      have hd := congrArg String.data h
      simp [jsToLower, hlist] at hd
    have hinfo : ¬ jsToLower ("tool:" ++ name) = "info" := by
      intro h
      have hd := congrArg String.data h
      simp [jsToLower, hlist] at hd
    have hpre : jsStartsWith ("tool:" ++ name) "tool:" = true := by
      simp [jsStartsWith, hlist, isPre]
    have hdrop : ("tool:" ++ name).toList.drop 5 = name.toList := by
      simp [hlist]
    simp only [chatStep, if_neg hq, if_neg hdbg, if_neg hinfo, hpre, if_pos, hdrop, ht,
      splitSpaces_no_space name.toList hn]
    rfl
  · intro name args res h
    simp [directToolCall, h]

/-- Claim C9 witness: QUIT quits, tool:echo with a JSON object argument
dispatches a direct call of echo with the parsed object, and a bare
tool:get-installed-apps line dispatches a direct call with empty
arguments. -/
theorem chat_loop_quit_and_direct_tool_witness :
    chatStep (fun s => if s = "\x7b\x22x\x22:1\x7d"
        then .ok (Json.obj [("x", Json.num 1)]) else .error "bad") "QUIT" = .quit ∧
    chatStep (fun s => if s = "\x7b\x22x\x22:1\x7d"
        then .ok (Json.obj [("x", Json.num 1)]) else .error "bad")
      ("tool:" ++ "echo" ++ " " ++ "\x7b\x22x\x22:1\x7d") =
      .directCall "echo" (Json.obj [("x", Json.num 1)]) false ∧
    chatStep (fun s => if s = "\x7b\x22x\x22:1\x7d"
        then .ok (Json.obj [("x", Json.num 1)]) else .error "bad")
      ("tool:" ++ "get-installed-apps") =
      .directCall "get-installed-apps" (Json.obj []) false :=
  ⟨(chat_loop_quit_and_direct_tool _ (fun _ _ => .error "unused")).1 "QUIT" rfl,
   (chat_loop_quit_and_direct_tool _ (fun _ _ => .error "unused")).2.1
     "echo" "\x7b\x22x\x22:1\x7d" (Json.obj [("x", Json.num 1)])
     (by decide) (by decide) rfl,
   (chat_loop_quit_and_direct_tool _ (fun _ _ => .error "unused")).2.2.1
     "get-installed-apps" (by decide) (by decide)⟩

/-- Claim C10: every well-formed tool:<name> args line whose argument
portion fails to parse as JSON still dispatches the direct tool call —
with the empty argument object and only a warning flag — rather than
rejecting the call. -/
theorem direct_tool_bad_json_still_invokes (pj : String → Except String Json)
    (name args e : String)
    (hn : ' ' ∉ name.toList)
    (ht : trimChars (name.toList ++ ' ' :: args.toList) =
      name.toList ++ ' ' :: args.toList)
    (h : pj args = .error e) :
    chatStep pj ("tool:" ++ name ++ " " ++ args) =
      .directCall name (Json.obj []) true := by
  rw [chatStep_tool_line pj name args hn ht, h]

/-- Claim C10 witness: a parser that rejects everything still yields a
direct call of echo with empty arguments and the warning flag. -/
theorem direct_tool_bad_json_still_invokes_witness :
    chatStep (fun _ => .error "bad") ("tool:" ++ "echo" ++ " " ++ "notjson") =
      .directCall "echo" (Json.obj []) true :=
  direct_tool_bad_json_still_invokes (fun _ => .error "bad") "echo" "notjson" "bad"
    (by decide) (by decide) rfl
